import Mathlib

/-!
Verification of the helper functions in `pyarrow/util.py`: the strided-span
calculator `get_contiguous_span`, the `product` helper, the path coercion
`_stringify_path`, and the deprecation wrapper `_deprecate_api`.

Python exceptions are modelled as values of `PyError`; fallible functions
return `Except PyError _`.  Shapes are lists of natural numbers (dimension
sizes), strides are lists of integers, itemsize is an integer, exactly as the
transient value tuples the code manipulates.
-/

deriving instance DecidableEq for Except

namespace PyArrowUtil

/-- The exception classes the modelled code can raise: `IndexError` from an
out-of-range `strides[i]` subscript, `ValueError` from the non-contiguity
check, `TypeError` from path coercion. -/
inductive PyError where
  | indexError : PyError
  | valueError : String → PyError
  | typeError : String → PyError
deriving DecidableEq, Repr

/-- `product(seq)` from `pyarrow/util.py`:
`functools.reduce(lambda a, b: a*b, seq, 1)`, i.e. a left fold of
multiplication starting from 1. -/
def product (seq : List Int) : Int :=
  seq.foldl (fun a b => a * b) 1

/-- The `for i, dim in enumerate(shape)` loop inside `get_contiguous_span`:
`i` is the enumerate counter, `start`/`e` the bounds accumulated so far.
A zero-size dimension sets both bounds to 0 and breaks out; `strides[i]`
raises `IndexError` when `i` is out of range; a positive stride grows the
upper bound by `stride * (dim - 1)`, a negative one lowers the lower bound
by the same product, a zero stride changes nothing. -/
def contiguousLoop (strides : List Int) (i : Nat) (start e : Int) :
    List Nat → Except PyError (Int × Int)
  | [] => .ok (start, e)
  | dim :: rest =>
    if dim = 0 then .ok (0, 0)
    else
      match strides[i]? with
      | none => .error .indexError
      | some stride =>
        if stride > 0 then
          contiguousLoop strides (i + 1) start (e + stride * ((dim : Int) - 1)) rest
        else if stride < 0 then
          contiguousLoop strides (i + 1) (start + stride * ((dim : Int) - 1)) e rest
        else
          contiguousLoop strides (i + 1) start e rest

/-- `get_contiguous_span(shape, strides, itemsize)` from `pyarrow/util.py`.
With no strides (`if not strides`) the array is assumed packed and the span
is `(0, itemsize * product(shape))`.  Otherwise the enumerate loop runs from
`start = 0`, `end = itemsize`, and afterwards the span width is checked
against `itemsize * product(shape)`; on mismatch
`ValueError('array data is non-contiguous')` is raised. -/
def get_contiguous_span (shape : List Nat) (strides : List Int) (itemsize : Int) :
    Except PyError (Int × Int) :=
  if strides = [] then
    .ok (0, itemsize * product (shape.map Int.ofNat))
  else
    match contiguousLoop strides 0 0 itemsize shape with
    | .error err => .error err
    | .ok (start, e) =>
      if e - start ≠ itemsize * product (shape.map Int.ofNat) then
        .error (.valueError "array data is non-contiguous")
      else
        .ok (start, e)

/-- Byte offset of the element at index tuple `index` of a strided array with
the given byte `strides` (base address 0): the sum of `strides[k] * index[k]`.
Used only to state what a strided layout means, for the gap/overlap claim. -/
def byteOffset (strides : List Int) (index : List Nat) : Int :=
  (List.zipWith (fun s k => s * (k : Int)) strides index).sum

/-- `index` is a valid element index tuple for `shape`: same length, and each
coordinate strictly below the corresponding dimension size. -/
def validIndex (shape index : List Nat) : Bool :=
  index.length = shape.length && (List.zip index shape).all fun p => p.1 < p.2

/-- The two byte ranges `[o1, o1 + m)` and `[o2, o2 + m)` of two elements of
itemsize `m` intersect. -/
def rangesOverlap (m o1 o2 : Int) : Prop :=
  o1 < o2 + m ∧ o2 < o1 + m

instance (m o1 o2 : Int) : Decidable (rangesOverlap m o1 o2) := by
  unfold rangesOverlap; infer_instance

/-- The byte `b` lies inside the byte range of the element with index `k` of
a one-dimensional array with stride `s` and itemsize `m`. -/
def coversByte (s m : Int) (k : Nat) (b : Int) : Prop :=
  s * (k : Int) ≤ b ∧ b < s * (k : Int) + m

instance (s m : Int) (k : Nat) (b : Int) : Decidable (coversByte s m k b) := by
  unfold coversByte; infer_instance

/-- The one-dimensional layout of `d` elements with stride `s` and itemsize
`m` leaves a gap inside the byte interval `[start, e)`: some byte of the
interval belongs to no element's range. -/
def hasGap1d (d : Nat) (s m start e : Int) : Prop :=
  ∃ b : Int, start ≤ b ∧ b < e ∧ ∀ k : Nat, k < d → ¬ coversByte s m k b

/-- A Python value as seen by `_stringify_path` / `_is_path_like`: a plain
string, a non-string object whose `__fspath__()` returns the given string, a
`pathlib.Path` on a Python without the `__fspath__` protocol (whose `str()`
is the given string), an integer, or any other non-path-like object. -/
inductive PyValue where
  | pyStr : String → PyValue
  | pyFspath : String → PyValue
  | pyPathNoFspath : String → PyValue
  | pyInt : Int → PyValue
  | pyOther : PyValue
deriving DecidableEq, Repr

/-- `_stringify_path(path)` from `pyarrow/util.py`: a string is returned
unchanged; otherwise `path.__fspath__()` is tried, with the resulting
`AttributeError` caught and followed by the `pathlib.Path` fallback; anything
else raises `TypeError('not a path-like object')`. -/
def _stringify_path : PyValue → Except PyError String
  | .pyStr s => .ok s
  | .pyFspath s => .ok s
  | .pyPathNoFspath s => .ok s
  | .pyInt _ => .error (.typeError "not a path-like object")
  | .pyOther => .error (.typeError "not a path-like object")

/-- `_is_path_like(path)` from `pyarrow/util.py`: string, or object with
`__fspath__`, or `pathlib.Path` instance. -/
def _is_path_like : PyValue → Bool
  | .pyStr _ => true
  | .pyFspath _ => true
  | .pyPathNoFspath _ => true
  | .pyInt _ => false
  | .pyOther => false

/-- A warning emitted through `warnings.warn`, recorded as an explicit side
channel: the message and the warning class name. -/
structure PyWarning where
  message : String
  category : String
deriving DecidableEq, Repr

/-- The message built by `_deprecate_api`:
`'pyarrow.{old_name} is deprecated as of {next_version}, please use
pyarrow.{new_name} instead'`. -/
def deprecationMessage (old_name next_version new_name : String) : String :=
  "pyarrow." ++ old_name ++ " is deprecated as of " ++ next_version ++
    ", please use pyarrow." ++ new_name ++ " instead"

/-- `_deprecate_api(old_name, new_name, api, next_version)` from
`pyarrow/util.py`: returns a wrapper that warns with the deprecation message
as a `FutureWarning` and then calls `api` on the same arguments, returning
its result.  The warning side channel is made explicit: the wrapper returns
the list of warnings it emitted alongside the wrapped call's value. -/
def _deprecate_api {α β : Type} (old_name new_name : String) (api : α → β)
    (next_version : String) : α → List PyWarning × β :=
  fun args =>
    ([{ message := deprecationMessage old_name next_version new_name,
        category := "FutureWarning" }],
     api args)

/-! Helper lemmas shared by the claim theorems. -/

/-- `product` is the product of the list's elements. -/
theorem product_eq_prod (l : List Int) : product l = l.prod := by
  have h : ∀ (a : Int), l.foldl (fun x y => x * y) a = a * l.prod := by
    induction l with
    | nil => intro a; simp
    | cons b t ih =>
      intro a
      simp only [List.foldl_cons, List.prod_cons, ih (a * b)]
      ring
  simpa [product] using h 1

/-- The product of the (cast) dimension sizes is non-negative. -/
theorem product_shape_nonneg (shape : List Nat) :
    0 ≤ product (shape.map Int.ofNat) := by
  rw [product_eq_prod]
  apply List.prod_nonneg
  intro a ha
  rcases List.mem_map.mp ha with ⟨n, _, rfl⟩
  exact Int.ofNat_nonneg n

/-- A zero dimension makes the product of the shape zero. -/
theorem product_shape_zero (shape : List Nat) (h : 0 ∈ shape) :
    product (shape.map Int.ofNat) = 0 := by
  rw [product_eq_prod]
  exact List.prod_eq_zero (List.mem_map.mpr ⟨0, h, rfl⟩)

/-- The product of a one-element shape is the dimension itself. -/
theorem product_shape_single (d : Nat) : product [(d : Int)] = (d : Int) := by
  simp [product]

/-- As soon as the loop meets a zero-size dimension it returns `(0, 0)`,
provided the strides sequence is long enough for every earlier subscript. -/
theorem contiguousLoop_zero_mem (shape : List Nat) :
    ∀ (strides : List Int) (i : Nat) (s e : Int), 0 ∈ shape →
      i + shape.length ≤ strides.length →
      contiguousLoop strides i s e shape = .ok (0, 0) := by
  induction shape with
  | nil => intro _ _ _ _ h _; cases h
  | cons dim rest ih =>
    intro strides i s e hmem hlen
    by_cases hd : dim = 0
    · simp [contiguousLoop, hd]
    · have hmem' : 0 ∈ rest := by
        rcases List.mem_cons.mp hmem with h0 | h0
        · exact absurd h0.symm hd
        · exact h0
      have hi : i < strides.length := by
        simp only [List.length_cons] at hlen; omega
      have hget : strides[i]? = some strides[i] := List.getElem?_eq_getElem hi
      have hlen' : (i + 1) + rest.length ≤ strides.length := by
        simp only [List.length_cons] at hlen; omega
      simp only [contiguousLoop, if_neg hd, hget]
      split
      · exact ih strides (i + 1) _ _ hmem' hlen'
      · split
        · exact ih strides (i + 1) _ _ hmem' hlen'
        · exact ih strides (i + 1) _ _ hmem' hlen'

/-- Starting from a non-positive lower bound and a non-negative upper bound,
the loop can only move the bounds outward: any successful result still has a
non-positive start and a non-negative end. -/
theorem contiguousLoop_bounds (shape : List Nat) :
    ∀ (strides : List Int) (i : Nat) (s e s' e' : Int), s ≤ 0 → 0 ≤ e →
      contiguousLoop strides i s e shape = .ok (s', e') → s' ≤ 0 ∧ 0 ≤ e' := by
  induction shape with
  | nil =>
    intro strides i s e s' e' hs he h
    simp only [contiguousLoop, Except.ok.injEq, Prod.mk.injEq] at h
    obtain ⟨h1, h2⟩ := h
    exact ⟨h1 ▸ hs, h2 ▸ he⟩
  | cons dim rest ih =>
    intro strides i s e s' e' hs he h
    by_cases hd : dim = 0
    · simp only [contiguousLoop, if_pos hd, Except.ok.injEq, Prod.mk.injEq] at h
      obtain ⟨h1, h2⟩ := h
      exact ⟨h1 ▸ le_refl 0, h2 ▸ le_refl 0⟩
    · have hdim1 : (0 : Int) ≤ (dim : Int) - 1 := by
        have : 1 ≤ dim := Nat.one_le_iff_ne_zero.mpr hd
        omega
      cases hget : strides[i]? with
      | none => simp [contiguousLoop, if_neg hd, hget] at h
      | some stride =>
        simp only [contiguousLoop, if_neg hd, hget] at h
        split at h
        · refine ih strides (i + 1) s _ s' e' hs ?_ h
          have hnn : 0 ≤ stride * ((dim : Int) - 1) :=
            mul_nonneg (le_of_lt (by assumption)) hdim1
          linarith
        · split at h
          · refine ih strides (i + 1) _ e s' e' ?_ he h
            have hnp : stride * ((dim : Int) - 1) ≤ 0 :=
              mul_nonpos_iff.mpr (Or.inr ⟨le_of_lt (by assumption), hdim1⟩)
            linarith
          · exact ih strides (i + 1) s e s' e' hs he h

/-- The loop on a one-dimensional nonzero shape: a positive stride raises the
end by `stride * (dim - 1)`, a negative one lowers the start by the same
amount, a zero stride leaves `(0, itemsize)`. -/
theorem contiguousLoop_single (d : Nat) (s m : Int) (hd : d ≠ 0) :
    contiguousLoop [s] 0 0 m [d]
      = .ok (if s < 0 then s * ((d : Int) - 1) else 0,
             if 0 < s then m + s * ((d : Int) - 1) else m) := by
  rcases lt_trichotomy s 0 with h | h | h
  · simp [contiguousLoop, hd, h, not_lt.mpr (le_of_lt h)]
  · simp [contiguousLoop, hd, h]
  · simp [contiguousLoop, hd, h, not_lt.mpr (le_of_lt h), lt_asymm h]

/-- Two distinct indices with overlapping byte ranges force the stride
magnitude strictly below the itemsize. -/
theorem overlap_abs_lt (m s : Int) (i j : Nat) (hij : i ≠ j)
    (hov : rangesOverlap m (s * (i : Int)) (s * (j : Int))) : |s| < m := by
  have ht : ((i : Int) - j) ≠ 0 := by
    have hne : (i : Int) ≠ (j : Int) := by exact_mod_cast hij
    exact sub_ne_zero.mpr hne
  have h1 : s * ((i : Int) - j) < m := by
    have h := hov.1
    have hexp : s * ((i : Int) - j) = s * i - s * j := by ring
    linarith
  have h2 : -(s * ((i : Int) - j)) < m := by
    have h := hov.2
    have hexp : -(s * ((i : Int) - j)) = s * j - s * i := by ring
    linarith
  have h3 : |s * ((i : Int) - j)| < m := abs_lt.mpr ⟨by linarith, h1⟩
  calc |s| = |s| * 1 := (mul_one _).symm
    _ ≤ |s| * |(i : Int) - j| :=
        mul_le_mul_of_nonneg_left (Int.one_le_abs ht) (abs_nonneg s)
    _ = |s * ((i : Int) - j)| := (abs_mul s _).symm
    _ < m := h3

/-- In one dimension the span-width check passes exactly when the array has a
single element or the stride is plus or minus the itemsize. -/
theorem width_check_single (d : Nat) (s m : Int) (hm : 0 < m) (hd : d ≠ 0) :
    ((if 0 < s then m + s * ((d : Int) - 1) else m)
        - (if s < 0 then s * ((d : Int) - 1) else 0) = m * (d : Int))
      ↔ (d = 1 ∨ s = m ∨ s = -m) := by
  have hd1 : (1 : Int) ≤ (d : Int) := by
    exact_mod_cast Nat.one_le_iff_ne_zero.mpr hd
  rcases lt_trichotomy s 0 with hs | rfl | hs
  · -- negative stride: width m - s*(d-1)
    rw [if_neg (not_lt.mpr (le_of_lt hs)), if_pos hs]
    constructor
    · intro h
      by_cases hone : d = 1
      · exact Or.inl hone
      · refine Or.inr (Or.inr ?_)
        have hd2 : (2 : Int) ≤ (d : Int) := by
          have h2 : 2 ≤ d := by omega
          exact_mod_cast h2
        have hpos : (0 : Int) < (d : Int) - 1 := by linarith
        have heq : s * ((d : Int) - 1) = (-m) * ((d : Int) - 1) := by
          linear_combination -h
        exact mul_right_cancel₀ (ne_of_gt hpos) heq
    · rintro (hone | hsm | hsm)
      · subst hone; push_cast; ring
      · subst hsm; linarith
      · subst hsm; ring
  · -- zero stride: width m
    rw [if_neg (lt_irrefl 0), if_neg (lt_irrefl 0), sub_zero]
    constructor
    · intro h
      left
      have hcancel : m * 1 = m * (d : Int) := by linarith
      have : (1 : Int) = (d : Int) := mul_left_cancel₀ (ne_of_gt hm) hcancel
      exact_mod_cast this.symm
    · rintro (hone | hsm | hsm)
      · subst hone; push_cast; ring
      · linarith
      · linarith
  · -- positive stride: width m + s*(d-1)
    rw [if_pos hs, if_neg (lt_asymm hs), sub_zero]
    constructor
    · intro h
      by_cases hone : d = 1
      · exact Or.inl hone
      · refine Or.inr (Or.inl ?_)
        have hd2 : (2 : Int) ≤ (d : Int) := by
          have h2 : 2 ≤ d := by omega
          exact_mod_cast h2
        have hpos : (0 : Int) < (d : Int) - 1 := by linarith
        have heq : s * ((d : Int) - 1) = m * ((d : Int) - 1) := by
          linear_combination h
        exact mul_right_cancel₀ (ne_of_gt hpos) heq
    · rintro (hone | hsm | hsm)
      · subst hone; push_cast; ring
      · subst hsm; ring
      · subst hsm; linarith

/-- When the one-dimensional span-width check passes, every byte of the
computed span is covered by some element's range: the layout has no gaps. -/
theorem covered_single (d : Nat) (s m : Int) (hm : 0 < m) (hd : d ≠ 0)
    (hok : d = 1 ∨ s = m ∨ s = -m) (b : Int)
    (hb1 : (if s < 0 then s * ((d : Int) - 1) else 0) ≤ b)
    (hb2 : b < (if 0 < s then m + s * ((d : Int) - 1) else m)) :
    ∃ k : Nat, k < d ∧ coversByte s m k b := by
  rcases hok with hone | hsm | hsm
  · -- single element: the span is [0, m) and element 0 covers it
    subst hone
    have hcast : ((1 : Nat) : Int) - 1 = 0 := by norm_num
    rw [hcast, mul_zero, ite_self] at hb1
    rw [hcast, mul_zero, add_zero, ite_self] at hb2
    refine ⟨0, Nat.one_pos, ?_, ?_⟩
    · simpa using hb1
    · simpa using hb2
  · -- stride m: element k = b / m covers b
    rw [hsm] at hb1 hb2 ⊢
    rw [if_neg (not_lt.mpr (le_of_lt hm))] at hb1
    rw [if_pos hm] at hb2
    have hbd : b < m * (d : Int) := by
      have hring : m + m * ((d : Int) - 1) = m * (d : Int) := by ring
      linarith
    have hq0 : 0 ≤ b / m := Int.ediv_nonneg hb1 (le_of_lt hm)
    have hdm := Int.ediv_add_emod b m
    have hr0 : 0 ≤ b % m := Int.emod_nonneg b (ne_of_gt hm)
    have hrm : b % m < m := Int.emod_lt_of_pos b hm
    have hlow : m * (b / m) ≤ b := by linarith
    have hhigh : b < m * (b / m) + m := by linarith
    have hqd : b / m < (d : Int) := by
      by_contra hc
      push_neg at hc
      have : m * (d : Int) ≤ m * (b / m) :=
        mul_le_mul_of_nonneg_left hc (le_of_lt hm)
      linarith
    have hkq : (((b / m).toNat : Int)) = b / m := Int.toNat_of_nonneg hq0
    refine ⟨(b / m).toNat, ?_, ?_, ?_⟩
    · have : (((b / m).toNat : Int)) < (d : Int) := hkq ▸ hqd
      exact_mod_cast this
    · rw [hkq]; exact hlow
    · rw [hkq]; exact hhigh
  · -- stride -m: element k = -(b / m) covers b
    rw [hsm] at hb1 hb2 ⊢
    have hneg : (-m : Int) < 0 := neg_neg_of_pos hm
    rw [if_pos hneg] at hb1
    rw [if_neg (not_lt.mpr (le_of_lt hneg))] at hb2
    have hq0 : b / m ≤ 0 := by
      by_contra hc
      push_neg at hc
      have h1 : (1 : Int) ≤ b / m := hc
      have : m * 1 ≤ m * (b / m) :=
        mul_le_mul_of_nonneg_left h1 (le_of_lt hm)
      have hdm := Int.ediv_add_emod b m
      have hr0 : 0 ≤ b % m := Int.emod_nonneg b (ne_of_gt hm)
      linarith
    have hdm := Int.ediv_add_emod b m
    have hr0 : 0 ≤ b % m := Int.emod_nonneg b (ne_of_gt hm)
    have hrm : b % m < m := Int.emod_lt_of_pos b hm
    have hlow : m * (b / m) ≤ b := by linarith
    have hhigh : b < m * (b / m) + m := by linarith
    have hqd : -(d : Int) < b / m := by
      by_contra hc
      push_neg at hc
      have hmono : m * (b / m) ≤ m * (-(d : Int)) :=
        mul_le_mul_of_nonneg_left hc (le_of_lt hm)
      have hring : (-m) * ((d : Int) - 1) = m * (-(d : Int)) + m := by ring
      linarith
    have hkq : ((((-(b / m)).toNat) : Int)) = -(b / m) :=
      Int.toNat_of_nonneg (neg_nonneg.mpr hq0)
    refine ⟨(-(b / m)).toNat, ?_, ?_, ?_⟩
    · have : ((((-(b / m)).toNat) : Int)) < (d : Int) := by
        rw [hkq]; linarith
      exact_mod_cast this
    · rw [hkq]
      have hring : (-m) * (-(b / m)) = m * (b / m) := by ring
      rw [hring]; exact hlow
    · rw [hkq]
      have hring : (-m) * (-(b / m)) = m * (b / m) := by ring
      rw [hring]; exact hhigh

/-! The claim theorems. -/

/-- C1: whenever `get_contiguous_span` returns a pair `(start, end)` — through
the no-strides branch, the zero-dimension short-circuit, or the strided
branch — the width `end - start` equals `itemsize * product(shape)`. -/
theorem C1_span_width (shape : List Nat) (strides : List Int) (itemsize s e : Int)
    (h : get_contiguous_span shape strides itemsize = .ok (s, e)) :
    e - s = itemsize * product (shape.map Int.ofNat) := by
  unfold get_contiguous_span at h
  split at h
  · simp only [Except.ok.injEq, Prod.mk.injEq] at h
    obtain ⟨h1, h2⟩ := h
    rw [← h1, ← h2, sub_zero]
  · split at h
    · cases h
    · split at h
      · cases h
      · simp only [Except.ok.injEq, Prod.mk.injEq] at h
        obtain ⟨h1, h2⟩ := h
        rw [← h1, ← h2]
        exact not_ne_iff.mp (by assumption)

/-- Witness for C1 at shape `(2,3)`, strides `(3,1)`, itemsize 1, where the
function returns `(0, 6)`. -/
theorem C1_span_width_witness :
    (6 : Int) - 0 = 1 * product ([2, 3].map Int.ofNat) :=
  C1_span_width [2, 3] [3, 1] 1 0 6 rfl

/-- C2 counterexample: the claim promises `(0, 0)` with no error for every
shape containing a zero and ANY strides, but with shape `(2, 2, 0)` and the
too-short strides `(1,)` the subscript `strides[1]` raises `IndexError`
before the zero-size dimension is reached. -/
theorem C2_counterexample :
    (0 ∈ [2, 2, 0]) ∧
      get_contiguous_span [2, 2, 0] [1] 1 = .error .indexError := by
  exact ⟨by decide, rfl⟩

/-- C2 as amended: for every shape containing a zero, any itemsize, and any
strides that are either empty or supply at least one stride per dimension,
`get_contiguous_span` returns exactly `(0, 0)` and raises no error, even when
dimensions before the zero-size one have already adjusted the bounds. -/
theorem C2_zero_dim_span (shape : List Nat) (strides : List Int) (itemsize : Int)
    (h0 : 0 ∈ shape) (hlen : strides = [] ∨ shape.length ≤ strides.length) :
    get_contiguous_span shape strides itemsize = .ok (0, 0) := by
  by_cases hnil : strides = []
  · subst hnil
    simp [get_contiguous_span, product_shape_zero shape h0]
  · have hlen' : shape.length ≤ strides.length := hlen.resolve_left hnil
    have hloop := contiguousLoop_zero_mem shape strides 0 0 itemsize h0 (by simpa using hlen')
    simp [get_contiguous_span, hnil, hloop, product_shape_zero shape h0]

/-- Witness for the amended C2: shape `(2, 0)`, strides `(5, 7)`, itemsize 3;
the first dimension raises the end bound to 8 before the zero-size dimension
discards it. -/
theorem C2_zero_dim_span_witness :
    get_contiguous_span [2, 0] [5, 7] 3 = .ok (0, 0) :=
  C2_zero_dim_span [2, 0] [5, 7] 3 (by decide) (Or.inr (by decide))

/-- C3: with strides supplied, no zero dimension, and a computed span whose
width disagrees with `itemsize * product(shape)`, the function raises
`ValueError('array data is non-contiguous')` and returns no span. -/
theorem C3_noncontiguous_rejected (shape : List Nat) (strides : List Int)
    (itemsize s e : Int) (hnil : strides ≠ []) (hz : ∀ d ∈ shape, d ≠ 0)
    (hloop : contiguousLoop strides 0 0 itemsize shape = .ok (s, e))
    (hne : e - s ≠ itemsize * product (shape.map Int.ofNat)) :
    get_contiguous_span shape strides itemsize
      = .error (.valueError "array data is non-contiguous") := by
  simp [get_contiguous_span, hnil, hloop, hne]

/-- Witness for C3: the claim's own instance shape `(2,2)`, strides `(10,1)`,
itemsize 1, whose loop computes the span `(0, 12)` of width 12 ≠ 4. -/
theorem C3_noncontiguous_rejected_witness :
    get_contiguous_span [2, 2] [10, 1] 1
      = .error (.valueError "array data is non-contiguous") :=
  C3_noncontiguous_rejected [2, 2] [10, 1] 1 0 12 (by decide) (by decide) rfl
    (by decide)

/-- C4 counterexample: shape `(2, 2)`, strides `(0, 3)`, itemsize 1 describes
a layout in which the distinct valid index tuples `(0,0)` and `(1,0)` occupy
the same (hence overlapping) byte range, yet `get_contiguous_span` accepts it
and returns the span `(0, 4)` instead of rejecting it. -/
theorem C4_counterexample :
    validIndex [2, 2] [0, 0] = true ∧ validIndex [2, 2] [1, 0] = true ∧
      ([0, 0] : List Nat) ≠ [1, 0] ∧
      rangesOverlap 1 (byteOffset [0, 3] [0, 0]) (byteOffset [0, 3] [1, 0]) ∧
      get_contiguous_span [2, 2] [0, 3] 1 = .ok (0, 4) := by
  refine ⟨rfl, rfl, by decide, by decide, rfl⟩

/-- C4 as amended: restricted to one-dimensional arrays the check is sound:
for shape `(d)` with `d ≠ 0`, strides `(s)`, and positive itemsize `m`,
whenever two distinct valid indices have overlapping byte ranges, or the
occupied bytes leave a gap inside the span computed by the loop,
`get_contiguous_span` rejects the input with the non-contiguous error.  (For
two or more dimensions the claim is false, as the counterexample shows.) -/
theorem C4_overlap_or_gap_rejected_1d (d : Nat) (s m : Int) (hm : 0 < m)
    (hd : d ≠ 0) (start e : Int)
    (hloop : contiguousLoop [s] 0 0 m [d] = .ok (start, e))
    (hbad : (∃ i j : Nat, i < d ∧ j < d ∧ i ≠ j ∧
              rangesOverlap m (s * (i : Int)) (s * (j : Int)))
        ∨ hasGap1d d s m start e) :
    get_contiguous_span [d] [s] m
      = .error (.valueError "array data is non-contiguous") := by
  have hloop0 := contiguousLoop_single d s m hd
  rw [hloop] at hloop0
  simp only [Except.ok.injEq, Prod.mk.injEq] at hloop0
  obtain ⟨hstart, he⟩ := hloop0
  subst hstart
  subst he
  have hne : ¬ (d = 1 ∨ s = m ∨ s = -m) := by
    rcases hbad with ⟨i, j, hi, hj, hij, hov⟩ | hgap
    · have habs := overlap_abs_lt m s i j hij hov
      rintro (hone | hsm | hsm)
      · omega
      · rw [hsm, abs_of_pos hm] at habs
        exact absurd habs (lt_irrefl m)
      · rw [hsm, abs_neg, abs_of_pos hm] at habs
        exact absurd habs (lt_irrefl m)
    · intro hc
      obtain ⟨b, hb1, hb2, hnone⟩ := hgap
      obtain ⟨k, hk, hcov⟩ := covered_single d s m hm hd hc b hb1 hb2
      exact hnone k hk hcov
  have hwidth : (if 0 < s then m + s * ((d : Int) - 1) else m)
      - (if s < 0 then s * ((d : Int) - 1) else 0) ≠ m * (d : Int) :=
    fun hc => hne ((width_check_single d s m hm hd).mp hc)
  simp [get_contiguous_span, hloop, product_shape_single, hwidth]

/-- Witness for the amended C4: shape `(2)`, stride `(2)`, itemsize 1 — byte 1
of the computed span `[0, 3)` lies in no element's range, a gap, and the
input is rejected. -/
theorem C4_overlap_or_gap_rejected_1d_witness :
    get_contiguous_span [2] [2] 1
      = .error (.valueError "array data is non-contiguous") :=
  C4_overlap_or_gap_rejected_1d 2 2 1 (by decide) (by decide) 0 3 rfl
    (Or.inr ⟨1, by decide, by decide, by decide⟩)

/-- C5: with no strides supplied the function returns
`(0, itemsize * product(shape))` unconditionally, and the empty shape with no
strides yields `(0, itemsize)`. -/
theorem C5_no_strides (shape : List Nat) (itemsize : Int) (h : 0 < itemsize) :
    get_contiguous_span shape [] itemsize
        = .ok (0, itemsize * product (shape.map Int.ofNat))
      ∧ get_contiguous_span [] [] itemsize = .ok (0, itemsize) := by
  constructor
  · simp [get_contiguous_span]
  · simp [get_contiguous_span, product]

/-- Witness for C5 at shape `(2, 3)` and itemsize 4. -/
theorem C5_no_strides_witness :
    get_contiguous_span [2, 3] [] 4
        = .ok (0, 4 * product ([2, 3].map Int.ofNat))
      ∧ get_contiguous_span [] [] 4 = .ok (0, 4) :=
  C5_no_strides [2, 3] 4 (by decide)

/-- C6: shape `(3,)`, strides `(-4,)`, itemsize 4 returns exactly `(-8, 4)`:
the negative stride widens the interval downward by `stride * (dim - 1)`
while the upper bound stays at the itemsize. -/
theorem C6_negative_stride :
    get_contiguous_span [3] [-4] 4 = .ok (-8, 4) := rfl

/-- C7: `product` computes the multiplicative product of the elements of any
sequence of integers, `product(()) = 1`, and `product((2,3,4)) = 24`. -/
theorem C7_product_spec :
    (∀ l : List Int, product l = l.prod)
      ∧ product [] = 1 ∧ product [2, 3, 4] = 24 :=
  ⟨product_eq_prod, rfl, by decide⟩

/-- C8: `_stringify_path` returns a string unchanged, renders an object with
the `__fspath__` capability or a structured `pathlib.Path` to its path
string, and raises `TypeError('not a path-like object')` on every other
value, in particular on an integer. -/
theorem C8_stringify_path :
    (∀ s, _stringify_path (.pyStr s) = .ok s)
      ∧ (∀ s, _stringify_path (.pyFspath s) = .ok s)
      ∧ (∀ s, _stringify_path (.pyPathNoFspath s) = .ok s)
      ∧ (∀ n, _stringify_path (.pyInt n)
            = .error (.typeError "not a path-like object"))
      ∧ _stringify_path .pyOther = .error (.typeError "not a path-like object") :=
  ⟨fun _ => rfl, fun _ => rfl, fun _ => rfl, fun _ => rfl, rfl⟩

/-- C9: the callable built by `_deprecate_api`, on any argument, returns
exactly what the wrapped callable returns on that argument, and its only side
channel is one non-fatal `FutureWarning` with the deprecation message. -/
theorem C9_deprecation_wrapper_transparent :
    ∀ (α β : Type) (old_name new_name next_version : String)
      (api : α → β) (x : α),
      (_deprecate_api old_name new_name api next_version x).2 = api x
        ∧ (_deprecate_api old_name new_name api next_version x).1
            = [⟨deprecationMessage old_name next_version new_name,
                "FutureWarning"⟩] :=
  fun _ _ _ _ _ _ _ => ⟨rfl, rfl⟩

/-- C10: with a non-negative itemsize, every pair `(start, end)` that
`get_contiguous_span` returns satisfies `start ≤ 0` and `end ≥ 0`: the start
only ever moves down from 0 and the end only ever moves up from a
non-negative seed, so offset 0 always lies in or on the boundary of the
span. -/
theorem C10_span_contains_zero (shape : List Nat) (strides : List Int)
    (itemsize s e : Int) (hm : 0 ≤ itemsize)
    (h : get_contiguous_span shape strides itemsize = .ok (s, e)) :
    s ≤ 0 ∧ 0 ≤ e := by
  unfold get_contiguous_span at h
  split at h
  · simp only [Except.ok.injEq, Prod.mk.injEq] at h
    obtain ⟨h1, h2⟩ := h
    refine ⟨h1 ▸ le_refl 0, h2 ▸ ?_⟩
    exact mul_nonneg hm (product_shape_nonneg shape)
  · split at h
    · cases h
    · rename_i start e' heq
      have hb := contiguousLoop_bounds shape strides 0 0 itemsize start e'
        (le_refl 0) hm heq
      split at h
      · cases h
      · simp only [Except.ok.injEq, Prod.mk.injEq] at h
        obtain ⟨h1, h2⟩ := h
        exact ⟨h1 ▸ hb.1, h2 ▸ hb.2⟩

/-- Witness for C10 at shape `(3,)`, strides `(-4,)`, itemsize 4, where the
returned span is `(-8, 4)`. -/
theorem C10_span_contains_zero_witness : (-8 : Int) ≤ 0 ∧ (0 : Int) ≤ 4 :=
  C10_span_contains_zero [3] [-4] 4 (-8) 4 (by decide) rfl

end PyArrowUtil
